import Mathlib

/-!
Verification of the football-league financial-returns dashboard
(`financials.py`): a shallow embedding of its data loading, session store,
plotting loops and best/worst summarizer, together with theorems about the
behaviours the design document describes.

Conventions of the embedding:
* Python dicts (which iterate in insertion order) are association lists
  `List (String × α)`; `dictGet` is subscript lookup, `dictInsert` is
  `d[k] = v` (update in place, or append a fresh key at the end).
* `pandas` numeric cells are `Rat`; a dataframe row is an association list
  from column name to value; a loaded dataframe is a `Dataset` whose two
  inserted constant columns `league_name` and `season` are carried as
  structure fields.
* Unhandled Python exceptions (KeyError, IndexError, missing file) are
  `Option.none`; an action that would crash the rerun evaluates to `none`.
-/

namespace Financials

/-- Python `str.replace` on character lists: rewrite every non-overlapping
occurrence of `pat` from the left, fuelled by the length of the subject
string (the source only ever uses non-empty patterns, for which the fuel is
sufficient because each step consumes at least one character). -/
def pyReplaceAux (pat rep : List Char) : Nat → List Char → List Char
  | 0, s => s
  | _ + 1, [] => []
  | fuel + 1, c :: cs =>
    if pat.isPrefixOf (c :: cs) then
      rep ++ pyReplaceAux pat rep fuel ((c :: cs).drop pat.length)
    else
      c :: pyReplaceAux pat rep fuel cs

/-- Python `s.replace(pat, rep)`. -/
def pyReplace (s pat rep : String) : String :=
  ⟨pyReplaceAux pat.data rep.data s.data.length s.data⟩

/-- Python `s.split(sep)` for a one-character separator, on character
lists: keeps empty segments, and splitting the empty string yields one
empty segment, exactly as in Python. -/
def splitChar (sep : Char) : List Char → List (List Char)
  | [] => [[]]
  | c :: cs =>
    match splitChar sep cs with
    | [] => [[c]]
    | g :: gs => if c = sep then [] :: g :: gs else (c :: g) :: gs

/-- Python `s.split(sep)` for a one-character separator. -/
def pySplit (s : String) (sep : Char) : List String :=
  (splitChar sep s.data).map (fun cs => ⟨cs⟩)

/-- Python dict subscript read `m[k]` (`none` models `KeyError`). -/
def dictGet {α : Type} (m : List (String × α)) (k : String) : Option α :=
  match m with
  | [] => none
  | (k2, v) :: rest => if k2 = k then some v else dictGet rest k

/-- Python dict subscript write `m[k] = v`: an existing key keeps its
position and gets the new value, a fresh key is appended at the end. -/
def dictInsert {α : Type} (m : List (String × α)) (k : String) (v : α) :
    List (String × α) :=
  match m with
  | [] => [(k, v)]
  | (k2, v2) :: rest =>
    if k2 = k then (k, v) :: rest else (k2, v2) :: dictInsert rest k v

/-- `league_files`: the fixed league → CSV filename mapping. -/
def league_files : List (String × String) := [
  ("Premier League", "england_premier-league-2023-2024_financial_returns.csv"),
  ("Championship", "england_championship-2023-2024_financial_returns.csv"),
  ("League Two", "england_league-two-2023-2024_financial_returns.csv"),
  ("League One", "england_league-one-2023-2024_financial_returns.csv"),
  ("Serie A (Italy)", "italy_serie-a-2023-2024_financial_returns.csv"),
  ("La Liga (Spain)", "spain_laliga-2023-2024_financial_returns.csv"),
  ("Liga Portugal", "portugal_liga-portugal-2023-2024_financial_returns.csv"),
  ("Ligue 1 (France)", "france_ligue-1-2023-2024_financial_returns.csv"),
  ("Ekstraklasa (Poland)", "poland_ekstraklasa-2023-2024_financial_returns.csv")]

/-- `strategy_colors`: the seven running strategy columns, in declaration
order, with their fixed plot colors. -/
def strategy_colors : List (String × String) := [
  ("home_returns_running_total", "blue"),
  ("draw_returns_running_total", "orange"),
  ("away_returns_running_total", "green"),
  ("first_choice_returns_running_total", "purple"),
  ("second_choice_returns_running_total", "red"),
  ("third_choice_returns_running_total", "brown"),
  ("random_choice_1_running_balance", "magenta")]

/-- `label_dict`: strategy descriptions for the fixture plot key. -/
def label_dict : List (String × String) := [
  ("home_returns_running_total", "£10 bet on every home win"),
  ("draw_returns_running_total", "£10 bet on every draw"),
  ("away_returns_running_total", "£10 bet on every away win"),
  ("first_choice_returns_running_total", "£10 on the favourite (lowest odds)"),
  ("second_choice_returns_running_total", "£10 on second favourite"),
  ("third_choice_returns_running_total", "£10 on Le Underdog (highest odds)"),
  ("random_choice_1_running_balance", "£10 random pick simulation")]

/-- `column_name_map`: descriptions keyed by the summary (`_total`) column
names. -/
def column_name_map : List (String × String) := [
  ("home_returns_total", "£10 bet on every home win"),
  ("draw_returns_total", "£10 bet on every draw"),
  ("away_returns_total", "£10 bet on every away win"),
  ("first_choice_returns_total", "£10 on the favourite (lowest odds)"),
  ("second_choice_returns_total", "£10 on second favourite"),
  ("third_choice_returns_total", "£10 on Le Underdog (highest odds)"),
  ("random_choice_1_total", "£10 random pick simulation")]

/-- The seven summary column names in declaration order
(`column_name_map` key order). -/
def sevenTotalNames : List String := column_name_map.map Prod.fst

/-- Season derivation from the CSV filename (Load Data branch):
`file_path.split('-')[-2] + '-' +
 file_path.split('-')[-1].replace('_financial_returns.csv', '')`.
The two Python negative indices are realized by dropping all but the last
two segments; fewer than two segments is an `IndexError`, hence `none`. -/
def deriveSeason (filePath : String) : Option String :=
  let parts := pySplit filePath '-'
  match parts.drop (parts.length - 2) with
  | [p2, p1] => some (p2 ++ "-" ++ pyReplace p1 "_financial_returns.csv" "")
  | _ => none

/-- One dataframe row: column name → numeric cell. -/
abbrev Row := List (String × Rat)

/-- A loaded league dataframe. The two constant columns inserted by the
loader (`df.insert(0, "league_name", league)` and
`df.insert(1, "season", season)`) are carried as fields; `rows` holds the
numeric fixture records in CSV (chronological) order. -/
structure Dataset where
  league_name : String
  season : String
  rows : List Row
deriving DecidableEq

/-- `df[col].iloc[-1]`: the last row's value of a column. `none` models
both the `KeyError` (missing column) and the `IndexError` (no rows). -/
def lastRowValue (df : Dataset) (col : String) : Option Rat :=
  match df.rows.getLast? with
  | none => none
  | some r => dictGet r col

/-- The summary-key substitution applied to each running column name:
`col.replace('_running_total', '_total').replace('_running_balance', '_total')`. -/
def toTotalName (col : String) : String :=
  pyReplace (pyReplace col "_running_total" "_total") "_running_balance" "_total"

/-- Worker for the `final_values` dict comprehension: walk the
`strategy_colors` keys in order, reading each column's last-row value and
inserting it under the substituted name. -/
def finalValuesGo (df : Dataset) : List String → List (String × Rat) →
    Option (List (String × Rat))
  | [], acc => some acc
  | col :: rest, acc =>
    match lastRowValue df col with
    | none => none
    | some v => finalValuesGo df rest (dictInsert acc (toTotalName col) v)

/-- `final_values = {col.replace(...): df[col].iloc[-1] for col in
strategy_colors.keys()}`. -/
def finalValues (df : Dataset) : Option (List (String × Rat)) :=
  finalValuesGo df (strategy_colors.map Prod.fst) []

/-- Python `max` with a key function over an insertion-ordered dict:
start from the first entry and replace the champion only on a strictly
larger value, so the first maximal entry wins. -/
def pyFoldMax (x : String × Rat) (ys : List (String × Rat)) : String × Rat :=
  ys.foldl (fun best y => if best.2 < y.2 then y else best) x

/-- `max(final_values, key=final_values.get)` paired with its value
(`none` models `ValueError` on an empty dict, which cannot happen here). -/
def pyMaxBy : List (String × Rat) → Option (String × Rat)
  | [] => none
  | x :: rest => some (pyFoldMax x rest)

/-- Python `min` with a key function: replace only on a strictly smaller
value, so the first minimal entry wins. -/
def pyFoldMin (x : String × Rat) (ys : List (String × Rat)) : String × Rat :=
  ys.foldl (fun best y => if y.2 < best.2 then y else best) x

/-- `min(final_values, key=final_values.get)` paired with its value. -/
def pyMinBy : List (String × Rat) → Option (String × Rat)
  | [] => none
  | x :: rest => some (pyFoldMin x rest)

/-- One record of the best/worst summary, field for field the dict
appended to `best_worst_records`. -/
structure BestWorstRecord where
  league_name : String
  best_return : Rat
  best_return_column : String
  worst_return : Rat
  worst_return_column : String
deriving DecidableEq

/-- The per-league body of the summary loop: build `final_values`, take
`best_col` / `worst_col` by keyed max/min, and emit the record. `none`
models the unhandled exceptions of that body. -/
def summarizeLeague (league : String) (df : Dataset) : Option BestWorstRecord :=
  match finalValues df with
  | none => none
  | some fv =>
    match pyMaxBy fv, pyMinBy fv with
    | some best, some worst =>
      some ⟨league, best.2, best.1, worst.2, worst.1⟩
    | _, _ => none

/-- `st.session_state`: the per-session key-value store. -/
abbrev Store := List (String × Dataset)

/-- Outcome of a "Load Data" click: the empty-selection warning, a clean
success, or an unhandled exception that aborts the rerun mid-loop. -/
inductive LoadOutcome where
  | warned
  | ok
  | crashed
deriving DecidableEq

/-- Load one league inside the loader loop: look up its file, read it
(`env` is the file system, `none` a read failure), derive the season, and
assign `st.session_state[f"{league}_df"] = df`. -/
def loadOne (env : String → Option (List Row)) (store : Store)
    (league : String) : Option Store :=
  match dictGet league_files league with
  | none => none
  | some filePath =>
    match env filePath with
    | none => none
    | some rows =>
      match deriveSeason filePath with
      | none => none
      | some season =>
        some (dictInsert store (league ++ "_df") ⟨league, season, rows⟩)

/-- The loader's `for league in selected_leagues` loop. A failure aborts
the loop but keeps the stores already committed for earlier leagues; the
`Bool` records whether the loop crashed. -/
def loadLoop (env : String → Option (List Row)) :
    List String → Store → Store × Bool
  | [], store => (store, false)
  | league :: rest, store =>
    match loadOne env store league with
    | none => (store, true)
    | some store2 => loadLoop env rest store2

/-- The "Load Data" button branch: warn when nothing is selected (and
touch nothing), otherwise run the loader loop over the selection. -/
def loadDataAction (env : String → Option (List Row))
    (selected : List String) (store : Store) : Store × LoadOutcome :=
  if selected.isEmpty then (store, LoadOutcome.warned)
  else
    match loadLoop env selected store with
    | (s, true) => (s, LoadOutcome.crashed)
    | (s, false) => (s, LoadOutcome.ok)

/-- Fold a whole session's sequence of "Load Data" clicks (each with its
selection at click time) over the store. -/
def applyLoads (env : String → Option (List Row))
    (actions : List (List String)) (store : Store) : Store :=
  actions.foldl (fun s sel => (loadDataAction env sel s).1) store

/-- `df[col]` as a full column (`none` if any row lacks the column). -/
def columnValues (df : Dataset) (col : String) : Option (List Rat) :=
  df.rows.mapM (fun r => dictGet r col)

/-- The data content of one fixture-by-fixture chart: the league, the
season shown in the title (`df.iloc[0]['season']`), and the seven plotted
series in `strategy_colors` key order. -/
structure Chart where
  league : String
  season : String
  series : List (String × List Rat)
deriving DecidableEq

/-- Render one league's fixture chart. `df.iloc[0]` requires at least one
row; each series requires its column to exist. -/
def plotLeague (league : String) (df : Dataset) : Option Chart :=
  match df.rows.head? with
  | none => none
  | some _ =>
    match (strategy_colors.map Prod.fst).mapM
        (fun col => (columnValues df col).map (fun vs => (col, vs))) with
    | none => none
    | some series => some ⟨league, df.season, series⟩

/-- The "View Financial Return Columns Plots" loop: a selected league
whose `f"{league}_df"` key is absent from the session store is skipped;
a loaded league that fails to render aborts the rerun (`none`). -/
def plotLoop (store : Store) : List String → Option (List Chart)
  | [] => some []
  | league :: rest =>
    match dictGet store (league ++ "_df") with
    | none => plotLoop store rest
    | some df =>
      match plotLeague league df with
      | none => none
      | some c => (plotLoop store rest).map (fun cs => c :: cs)

/-- The "View Combined Best & Worst Returns" collection loop over
`selected_leagues`, with the same skip-on-missing-key check. -/
def summaryLoop (store : Store) : List String → Option (List BestWorstRecord)
  | [] => some []
  | league :: rest =>
    match dictGet store (league ++ "_df") with
    | none => summaryLoop store rest
    | some df =>
      match summarizeLeague league df with
      | none => none
      | some r => (summaryLoop store rest).map (fun rs => r :: rs)

/-- The whole summary action: run the loop, then build
`summary_df = pd.DataFrame(best_worst_records)`. A dataframe built from
an empty record list has no columns, so the subsequent
`summary_df['best_return_column']` access raises `KeyError`: the action
only completes when at least one record was collected. -/
def summarizeAction (store : Store) (selected : List String) :
    Option (List BestWorstRecord) :=
  match summaryLoop store selected with
  | none => none
  | some records => if records.isEmpty then none else some records

/-- The bar-color lambda shared by both summary bar charts:
`strategy_colors.get(x.replace('_total', '_running_total'), 'grey')`. -/
def barColor (x : String) : String :=
  match dictGet strategy_colors (pyReplace x "_total" "_running_total") with
  | some c => c
  | none => "grey"

/-- `best_colors`: one bar color per summary record, from its
`best_return_column`. -/
def bestColors (summary : List BestWorstRecord) : List String :=
  summary.map (fun r => barColor r.best_return_column)

/-- `worst_colors`: one bar color per summary record, from its
`worst_return_column`. -/
def worstColors (summary : List BestWorstRecord) : List String :=
  summary.map (fun r => barColor r.worst_return_column)

/-- A one-fixture row whose seven running columns carry the final values
`[10, -5, 20, 0, 15, -20, 5]` in declaration order. -/
def sampleRow : Row := [
  ("home_returns_running_total", 10),
  ("draw_returns_running_total", -5),
  ("away_returns_running_total", 20),
  ("first_choice_returns_running_total", 0),
  ("second_choice_returns_running_total", 15),
  ("third_choice_returns_running_total", -20),
  ("random_choice_1_running_balance", 5)]

/-- A loaded dataset whose final values are `[10, -5, 20, 0, 15, -20, 5]`. -/
def sampleDataset : Dataset := ⟨"Premier League", "2023-2024", [sampleRow]⟩

/-- A one-fixture row with a tie for the maximum (home and draw both 7)
and for the minimum (first and second choice both 0). -/
def tieRow : Row := [
  ("home_returns_running_total", 7),
  ("draw_returns_running_total", 7),
  ("away_returns_running_total", 3),
  ("first_choice_returns_running_total", 0),
  ("second_choice_returns_running_total", 0),
  ("third_choice_returns_running_total", 2),
  ("random_choice_1_running_balance", 5)]

/-- A loaded dataset with tied extremal final values. -/
def tieDataset : Dataset := ⟨"X", "2023-2024", [tieRow]⟩

/-- The `final_values` dict of `tieDataset`, written out. -/
def tieFinalValues : List (String × Rat) := [
  ("home_returns_total", 7), ("draw_returns_total", 7),
  ("away_returns_total", 3), ("first_choice_returns_total", 0),
  ("second_choice_returns_total", 0), ("third_choice_returns_total", 2),
  ("random_choice_1_total", 5)]

/-- The `final_values` dict of `sampleDataset`, written out. -/
def sampleFinalValues : List (String × Rat) := [
  ("home_returns_total", 10), ("draw_returns_total", -5),
  ("away_returns_total", 20), ("first_choice_returns_total", 0),
  ("second_choice_returns_total", 15), ("third_choice_returns_total", -20),
  ("random_choice_1_total", 5)]

/-- A session store holding exactly one loaded league. -/
def demoStore : Store := [("Premier League_df", sampleDataset)]

/-! ## Helper lemmas -/

/-- When the `final_values` comprehension succeeds it yields exactly the
seven substituted names, in `strategy_colors` declaration order, each
paired with its column's last-row value. -/
lemma finalValues_some (df : Dataset) (fv : List (String × Rat))
    (h : finalValues df = some fv) :
    ∃ v1 v2 v3 v4 v5 v6 v7 : Rat,
      lastRowValue df "home_returns_running_total" = some v1 ∧
      lastRowValue df "draw_returns_running_total" = some v2 ∧
      lastRowValue df "away_returns_running_total" = some v3 ∧
      lastRowValue df "first_choice_returns_running_total" = some v4 ∧
      lastRowValue df "second_choice_returns_running_total" = some v5 ∧
      lastRowValue df "third_choice_returns_running_total" = some v6 ∧
      lastRowValue df "random_choice_1_running_balance" = some v7 ∧
      fv = [("home_returns_total", v1), ("draw_returns_total", v2),
            ("away_returns_total", v3), ("first_choice_returns_total", v4),
            ("second_choice_returns_total", v5), ("third_choice_returns_total", v6),
            ("random_choice_1_total", v7)] := by
  unfold finalValues at h
  simp only [strategy_colors, List.map] at h
  simp only [finalValuesGo] at h
  split at h
  case _ => exact absurd h (by simp)
  case _ v1 e1 =>
  split at h
  case _ => exact absurd h (by simp)
  case _ v2 e2 =>
  split at h
  case _ => exact absurd h (by simp)
  case _ v3 e3 =>
  split at h
  case _ => exact absurd h (by simp)
  case _ v4 e4 =>
  split at h
  case _ => exact absurd h (by simp)
  case _ v5 e5 =>
  split at h
  case _ => exact absurd h (by simp)
  case _ v6 e6 =>
  split at h
  case _ => exact absurd h (by simp)
  case _ v7 e7 =>
  exact ⟨v1, v2, v3, v4, v5, v6, v7, e1, e2, e3, e4, e5, e6, e7,
    (Option.some.inj h).symm⟩

/-- The keyed `max` fold yields the first entry attaining the maximum:
the list splits at the champion, everything before it is strictly
smaller, and nothing exceeds it. -/
lemma pyFoldMax_first (ys : List (String × Rat)) :
    ∀ x : String × Rat,
      ∃ l₁ l₂, x :: ys = l₁ ++ pyFoldMax x ys :: l₂ ∧
        (∀ y ∈ l₁, y.2 < (pyFoldMax x ys).2) ∧
        ∀ y ∈ x :: ys, y.2 ≤ (pyFoldMax x ys).2 := by
  induction ys with
  | nil =>
    intro x
    exact ⟨[], [], rfl, by simp, by simp [pyFoldMax]⟩
  | cons y ys ih =>
    intro x
    by_cases hxy : x.2 < y.2
    · have hstep : pyFoldMax x (y :: ys) = pyFoldMax y ys := by
        simp [pyFoldMax, List.foldl, hxy]
      obtain ⟨l₁, l₂, heq, hlt, hle⟩ := ih y
      rw [hstep]
      refine ⟨x :: l₁, l₂, ?_, ?_, ?_⟩
      · simpa using congrArg (x :: ·) heq
      · intro z hz
        rcases List.mem_cons.mp hz with rfl | hz
        · exact lt_of_lt_of_le hxy (hle y (List.mem_cons_self y ys))
        · exact hlt z hz
      · intro z hz
        rcases List.mem_cons.mp hz with rfl | hz
        · exact le_of_lt (lt_of_lt_of_le hxy (hle y (List.mem_cons_self y ys)))
        · exact hle z hz
    · have hstep : pyFoldMax x (y :: ys) = pyFoldMax x ys := by
        simp [pyFoldMax, List.foldl, hxy]
      obtain ⟨l₁, l₂, heq, hlt, hle⟩ := ih x
      rw [hstep]
      cases l₁ with
      | nil =>
        simp only [List.nil_append] at heq
        injection heq with h1 h2
        refine ⟨[], y :: ys, ?_, by simp, ?_⟩
        · rw [List.nil_append, ← h1]
        · intro z hz
          rw [← h1]
          rcases List.mem_cons.mp hz with rfl | hz
          · exact le_refl _
          · rcases List.mem_cons.mp hz with rfl | hz
            · exact le_of_not_lt hxy
            · have := hle z (List.mem_cons_of_mem x hz)
              rwa [← h1] at this
      | cons a l₁ =>
        rw [List.cons_append] at heq
        injection heq with h1 h2
        subst h1
        refine ⟨x :: y :: l₁, l₂, ?_, ?_, ?_⟩
        · rw [List.cons_append, List.cons_append, ← h2]
        · intro z hz
          have ha : x.2 < (pyFoldMax x ys).2 := hlt x (List.mem_cons_self x l₁)
          rcases List.mem_cons.mp hz with rfl | hz
          · exact ha
          · rcases List.mem_cons.mp hz with rfl | hz
            · exact lt_of_le_of_lt (le_of_not_lt hxy) ha
            · exact hlt z (List.mem_cons_of_mem x hz)
        · intro z hz
          rcases List.mem_cons.mp hz with rfl | hz
          · exact hle z (List.mem_cons_self z ys)
          · rcases List.mem_cons.mp hz with rfl | hz
            · exact le_trans (le_of_not_lt hxy) (hle x (List.mem_cons_self x ys))
            · exact hle z (List.mem_cons_of_mem x hz)

/-- The keyed `min` fold yields the first entry attaining the minimum. -/
lemma pyFoldMin_first (ys : List (String × Rat)) :
    ∀ x : String × Rat,
      ∃ l₁ l₂, x :: ys = l₁ ++ pyFoldMin x ys :: l₂ ∧
        (∀ y ∈ l₁, (pyFoldMin x ys).2 < y.2) ∧
        ∀ y ∈ x :: ys, (pyFoldMin x ys).2 ≤ y.2 := by
  induction ys with
  | nil =>
    intro x
    exact ⟨[], [], rfl, by simp, by simp [pyFoldMin]⟩
  | cons y ys ih =>
    intro x
    by_cases hyx : y.2 < x.2
    · have hstep : pyFoldMin x (y :: ys) = pyFoldMin y ys := by
        simp [pyFoldMin, List.foldl, hyx]
      obtain ⟨l₁, l₂, heq, hlt, hle⟩ := ih y
      rw [hstep]
      refine ⟨x :: l₁, l₂, ?_, ?_, ?_⟩
      · simpa using congrArg (x :: ·) heq
      · intro z hz
        rcases List.mem_cons.mp hz with rfl | hz
        · exact lt_of_le_of_lt (hle y (List.mem_cons_self y ys)) hyx
        · exact hlt z hz
      · intro z hz
        rcases List.mem_cons.mp hz with rfl | hz
        · exact le_of_lt (lt_of_le_of_lt (hle y (List.mem_cons_self y ys)) hyx)
        · exact hle z hz
    · have hstep : pyFoldMin x (y :: ys) = pyFoldMin x ys := by
        simp [pyFoldMin, List.foldl, hyx]
      obtain ⟨l₁, l₂, heq, hlt, hle⟩ := ih x
      rw [hstep]
      cases l₁ with
      | nil =>
        simp only [List.nil_append] at heq
        injection heq with h1 h2
        refine ⟨[], y :: ys, ?_, by simp, ?_⟩
        · rw [List.nil_append, ← h1]
        · intro z hz
          rw [← h1]
          rcases List.mem_cons.mp hz with rfl | hz
          · exact le_refl _
          · rcases List.mem_cons.mp hz with rfl | hz
            · exact le_of_not_lt hyx
            · have := hle z (List.mem_cons_of_mem x hz)
              rwa [← h1] at this
      | cons a l₁ =>
        rw [List.cons_append] at heq
        injection heq with h1 h2
        subst h1
        refine ⟨x :: y :: l₁, l₂, ?_, ?_, ?_⟩
        · rw [List.cons_append, List.cons_append, ← h2]
        · intro z hz
          have ha : (pyFoldMin x ys).2 < x.2 := hlt x (List.mem_cons_self x l₁)
          rcases List.mem_cons.mp hz with rfl | hz
          · exact ha
          · rcases List.mem_cons.mp hz with rfl | hz
            · exact lt_of_lt_of_le ha (le_of_not_lt hyx)
            · exact hlt z (List.mem_cons_of_mem x hz)
        · intro z hz
          rcases List.mem_cons.mp hz with rfl | hz
          · exact hle z (List.mem_cons_self z ys)
          · rcases List.mem_cons.mp hz with rfl | hz
            · exact le_trans (hle x (List.mem_cons_self x ys)) (le_of_not_lt hyx)
            · exact hle z (List.mem_cons_of_mem x hz)

/-- Characterization of a successful keyed `max` over a dict. -/
lemma pyMaxBy_first (xs : List (String × Rat)) (m : String × Rat)
    (h : pyMaxBy xs = some m) :
    ∃ l₁ l₂, xs = l₁ ++ m :: l₂ ∧ (∀ y ∈ l₁, y.2 < m.2) ∧
      ∀ y ∈ xs, y.2 ≤ m.2 := by
  cases xs with
  | nil => exact absurd h (by simp [pyMaxBy])
  | cons x rest =>
    have hm : pyFoldMax x rest = m := Option.some.inj (by simpa [pyMaxBy] using h)
    obtain ⟨l₁, l₂, heq, hlt, hle⟩ := pyFoldMax_first rest x
    exact ⟨l₁, l₂, hm ▸ heq, hm ▸ hlt, hm ▸ hle⟩

/-- Characterization of a successful keyed `min` over a dict. -/
lemma pyMinBy_first (xs : List (String × Rat)) (m : String × Rat)
    (h : pyMinBy xs = some m) :
    ∃ l₁ l₂, xs = l₁ ++ m :: l₂ ∧ (∀ y ∈ l₁, m.2 < y.2) ∧
      ∀ y ∈ xs, m.2 ≤ y.2 := by
  cases xs with
  | nil => exact absurd h (by simp [pyMinBy])
  | cons x rest =>
    have hm : pyFoldMin x rest = m := Option.some.inj (by simpa [pyMinBy] using h)
    obtain ⟨l₁, l₂, heq, hlt, hle⟩ := pyFoldMin_first rest x
    exact ⟨l₁, l₂, hm ▸ heq, hm ▸ hlt, hm ▸ hle⟩

/-- Unpacking a successful summary-loop body: the record's best and worst
fields come from the keyed max/min over its `final_values`. -/
lemma summarizeLeague_some (lg : String) (df : Dataset) (r : BestWorstRecord)
    (h : summarizeLeague lg df = some r) :
    ∃ fv, finalValues df = some fv ∧
      pyMaxBy fv = some (r.best_return_column, r.best_return) ∧
      pyMinBy fv = some (r.worst_return_column, r.worst_return) ∧
      r.league_name = lg := by
  unfold summarizeLeague at h
  split at h
  case _ => exact absurd h (by simp)
  case _ fv hfv =>
  split at h
  case _ best worst hmax hmin =>
    cases Option.some.inj h
    exact ⟨fv, hfv, hmax, hmin, rfl⟩
  case _ => exact absurd h (by simp)


/-- The best and worst columns of an emitted record are among the seven
summary column names. -/
lemma summarize_cols_mem (lg : String) (df : Dataset) (r : BestWorstRecord)
    (h : summarizeLeague lg df = some r) :
    r.best_return_column ∈ sevenTotalNames ∧
    r.worst_return_column ∈ sevenTotalNames := by
  obtain ⟨fv, hfv, hmax, hmin, _⟩ := summarizeLeague_some lg df r h
  obtain ⟨v1, v2, v3, v4, v5, v6, v7, _, _, _, _, _, _, _, hfveq⟩ :=
    finalValues_some df fv hfv
  subst hfveq
  constructor
  · obtain ⟨l₁, l₂, heq, _, _⟩ := pyMaxBy_first _ _ hmax
    have hmem : (r.best_return_column, r.best_return) ∈
        [("home_returns_total", v1), ("draw_returns_total", v2),
         ("away_returns_total", v3), ("first_choice_returns_total", v4),
         ("second_choice_returns_total", v5), ("third_choice_returns_total", v6),
         ("random_choice_1_total", v7)] := by
      rw [heq]; exact List.mem_append_right _ (List.mem_cons_self _ _)
    have := List.mem_map_of_mem Prod.fst hmem
    simpa [sevenTotalNames, column_name_map] using this
  · obtain ⟨l₁, l₂, heq, _, _⟩ := pyMinBy_first _ _ hmin
    have hmem : (r.worst_return_column, r.worst_return) ∈
        [("home_returns_total", v1), ("draw_returns_total", v2),
         ("away_returns_total", v3), ("first_choice_returns_total", v4),
         ("second_choice_returns_total", v5), ("third_choice_returns_total", v6),
         ("random_choice_1_total", v7)] := by
      rw [heq]; exact List.mem_append_right _ (List.mem_cons_self _ _)
    have := List.mem_map_of_mem Prod.fst hmem
    simpa [sevenTotalNames, column_name_map] using this

/-- A key of `dictInsert m k v` is `k` or a key of `m`. -/
lemma mem_keys_dictInsert {α : Type} (m : List (String × α)) (k x : String)
    (v : α) (h : x ∈ (dictInsert m k v).map Prod.fst) :
    x = k ∨ x ∈ m.map Prod.fst := by
  induction m with
  | nil => simpa [dictInsert] using h
  | cons e rest ih =>
    obtain ⟨k2, v2⟩ := e
    by_cases hek : k2 = k
    · simp only [dictInsert, if_pos hek, List.map, List.mem_cons] at h
      rcases h with rfl | h
      · exact Or.inl rfl
      · exact Or.inr (List.mem_cons_of_mem _ h)
    · simp only [dictInsert, if_neg hek, List.map, List.mem_cons] at h
      rcases h with rfl | h
      · exact Or.inr (List.mem_cons_self _ _)
      · rcases ih h with rfl | h2
        · exact Or.inl rfl
        · exact Or.inr (List.mem_cons_of_mem _ h2)

/-- Dict assignment preserves distinctness of keys. -/
lemma nodup_keys_dictInsert {α : Type} (m : List (String × α)) (k : String)
    (v : α) (h : (m.map Prod.fst).Nodup) :
    ((dictInsert m k v).map Prod.fst).Nodup := by
  induction m with
  | nil => simp [dictInsert]
  | cons e rest ih =>
    obtain ⟨k2, v2⟩ := e
    simp only [List.map, List.nodup_cons] at h
    by_cases hek : k2 = k
    · subst hek
      simp only [dictInsert, if_pos rfl, List.map, List.nodup_cons]
      exact h
    · simp only [dictInsert, if_neg hek, List.map, List.nodup_cons]
      refine ⟨?_, ih h.2⟩
      intro hmem
      rcases mem_keys_dictInsert rest k k2 v hmem with rfl | hmem2
      · exact hek rfl
      · exact h.1 hmem2

/-- A list with distinct keys holds at most one entry per key. -/
lemma countP_keys_le_one {α : Type} (m : List (String × α)) (k : String)
    (h : (m.map Prod.fst).Nodup) :
    m.countP (fun e => e.1 == k) ≤ 1 := by
  induction m with
  | nil => simp
  | cons e rest ih =>
    simp only [List.map, List.nodup_cons] at h
    rw [List.countP_cons]
    by_cases hek : (e.1 == k) = true
    · have hek2 : e.1 = k := by simpa using hek
      have h0 : rest.countP (fun x => x.1 == k) = 0 := by
        rw [List.countP_eq_zero]
        intro a ha hak
        have hak2 : a.1 = k := by simpa using hak
        exact h.1 (by rw [hek2, ← hak2]; exact List.mem_map_of_mem Prod.fst ha)
      simp [h0, hek]
    · have := ih h.2
      simp only [hek]
      simpa using this



/-- Loading one league preserves distinctness of store keys. -/
lemma loadOne_nodup (env : String → Option (List Row)) (store : Store)
    (lg : String) (s2 : Store) (h : loadOne env store lg = some s2)
    (hn : (store.map Prod.fst).Nodup) : (s2.map Prod.fst).Nodup := by
  unfold loadOne at h
  split at h
  case _ => exact absurd h (by simp)
  case _ fp hfp =>
  split at h
  case _ => exact absurd h (by simp)
  case _ rows hrows =>
  split at h
  case _ => exact absurd h (by simp)
  case _ season hseason =>
  cases Option.some.inj h
  exact nodup_keys_dictInsert store _ _ hn

/-- The loader loop preserves distinctness of store keys, crash or not. -/
lemma loadLoop_nodup (env : String → Option (List Row)) :
    ∀ (sel : List String) (store : Store),
      (store.map Prod.fst).Nodup →
      (((loadLoop env sel store).1).map Prod.fst).Nodup := by
  intro sel
  induction sel with
  | nil => intro store hn; simpa [loadLoop] using hn
  | cons lg rest ih =>
    intro store hn
    cases hl : loadOne env store lg with
    | none => simpa [loadLoop, hl] using hn
    | some s2 =>
      simpa [loadLoop, hl] using ih s2 (loadOne_nodup env store lg s2 hl hn)

/-- A whole "Load Data" click preserves distinctness of store keys. -/
lemma loadDataAction_nodup (env : String → Option (List Row))
    (sel : List String) (store : Store) (hn : (store.map Prod.fst).Nodup) :
    (((loadDataAction env sel store).1).map Prod.fst).Nodup := by
  unfold loadDataAction
  split
  · simpa using hn
  · have h1 := loadLoop_nodup env sel store hn
    split
    case _ s heq => rw [heq] at h1; exact h1
    case _ s heq => rw [heq] at h1; exact h1

/-- Any sequence of "Load Data" clicks preserves distinctness of store
keys. -/
lemma applyLoads_nodup (env : String → Option (List Row)) :
    ∀ (acts : List (List String)) (store : Store),
      (store.map Prod.fst).Nodup →
      ((applyLoads env acts store).map Prod.fst).Nodup := by
  intro acts
  induction acts with
  | nil => intro store hn; simpa [applyLoads] using hn
  | cons a acts ih =>
    intro store hn
    have h1 := loadDataAction_nodup env a store hn
    simpa [applyLoads, List.foldl] using ih _ h1



/-- The plot loop ignores a selected league whose store key is absent. -/
lemma plotLoop_skip (store : Store) (league : String)
    (h : dictGet store (league ++ "_df") = none) :
    ∀ pre post : List String,
      plotLoop store (pre ++ league :: post) = plotLoop store (pre ++ post) := by
  intro pre
  induction pre with
  | nil => intro post; simp [plotLoop, h]
  | cons a pre ih =>
    intro post
    cases h2 : dictGet store (a ++ "_df") with
    | none =>
      simp only [List.cons_append, plotLoop, h2]
      exact ih post
    | some df =>
      simp only [List.cons_append, plotLoop, h2]
      cases h3 : plotLeague a df with
      | none => rfl
      | some c => exact congrArg (Option.map fun cs => c :: cs) (ih post)

/-- The summary loop ignores a selected league whose store key is
absent. -/
lemma summaryLoop_skip (store : Store) (league : String)
    (h : dictGet store (league ++ "_df") = none) :
    ∀ pre post : List String,
      summaryLoop store (pre ++ league :: post) =
        summaryLoop store (pre ++ post) := by
  intro pre
  induction pre with
  | nil => intro post; simp [summaryLoop, h]
  | cons a pre ih =>
    intro post
    cases h2 : dictGet store (a ++ "_df") with
    | none =>
      simp only [List.cons_append, summaryLoop, h2]
      exact ih post
    | some df =>
      simp only [List.cons_append, summaryLoop, h2]
      cases h3 : summarizeLeague a df with
      | none => rfl
      | some r => exact congrArg (Option.map fun rs => r :: rs) (ih post)

/-- Whenever the plot loop completes, every loaded selected league has
its chart among the results. -/
lemma plotLoop_processed (store : Store) :
    ∀ (selected : List String) (league : String) (df : Dataset),
      league ∈ selected → dictGet store (league ++ "_df") = some df →
      ∀ charts, plotLoop store selected = some charts →
        ∃ c ∈ charts, plotLeague league df = some c := by
  intro selected
  induction selected with
  | nil => intro lg df h; exact absurd h (List.not_mem_nil lg)
  | cons a rest ih =>
    intro lg df hmem hdg charts hloop
    rcases List.mem_cons.mp hmem with rfl | hmem2
    · simp only [plotLoop, hdg] at hloop
      cases h3 : plotLeague lg df with
      | none => rw [h3] at hloop; exact absurd hloop (by simp)
      | some c =>
        rw [h3] at hloop
        obtain ⟨cs, hcs, rfl⟩ := Option.map_eq_some'.mp hloop
        exact ⟨c, List.mem_cons_self c cs, rfl⟩
    · cases h2 : dictGet store (a ++ "_df") with
      | none =>
        simp only [plotLoop, h2] at hloop
        exact ih lg df hmem2 hdg charts hloop
      | some df2 =>
        simp only [plotLoop, h2] at hloop
        cases h3 : plotLeague a df2 with
        | none => rw [h3] at hloop; exact absurd hloop (by simp)
        | some c =>
          rw [h3] at hloop
          obtain ⟨cs, hcs, rfl⟩ := Option.map_eq_some'.mp hloop
          obtain ⟨c2, hc2, hpl⟩ := ih lg df hmem2 hdg cs hcs
          exact ⟨c2, List.mem_cons_of_mem c hc2, hpl⟩

/-- Whenever the summary loop completes, every loaded selected league
has its record among the results. -/
lemma summaryLoop_processed (store : Store) :
    ∀ (selected : List String) (league : String) (df : Dataset),
      league ∈ selected → dictGet store (league ++ "_df") = some df →
      ∀ records, summaryLoop store selected = some records →
        ∃ r ∈ records, summarizeLeague league df = some r := by
  intro selected
  induction selected with
  | nil => intro lg df h; exact absurd h (List.not_mem_nil lg)
  | cons a rest ih =>
    intro lg df hmem hdg records hloop
    rcases List.mem_cons.mp hmem with rfl | hmem2
    · simp only [summaryLoop, hdg] at hloop
      cases h3 : summarizeLeague lg df with
      | none => rw [h3] at hloop; exact absurd hloop (by simp)
      | some r =>
        rw [h3] at hloop
        obtain ⟨rs, hrs, rfl⟩ := Option.map_eq_some'.mp hloop
        exact ⟨r, List.mem_cons_self r rs, rfl⟩
    · cases h2 : dictGet store (a ++ "_df") with
      | none =>
        simp only [summaryLoop, h2] at hloop
        exact ih lg df hmem2 hdg records hloop
      | some df2 =>
        simp only [summaryLoop, h2] at hloop
        cases h3 : summarizeLeague a df2 with
        | none => rw [h3] at hloop; exact absurd hloop (by simp)
        | some r =>
          rw [h3] at hloop
          obtain ⟨rs, hrs, rfl⟩ := Option.map_eq_some'.mp hloop
          obtain ⟨r2, hr2, hsl⟩ := ih lg df hmem2 hdg rs hrs
          exact ⟨r2, List.mem_cons_of_mem r hr2, hsl⟩

/-- With no selected league loaded, the summary loop collects nothing. -/
lemma summaryLoop_all_missing (store : Store) :
    ∀ selected : List String,
      (∀ league ∈ selected, dictGet store (league ++ "_df") = none) →
      summaryLoop store selected = some [] := by
  intro selected
  induction selected with
  | nil => intro _; rfl
  | cons a rest ih =>
    intro h
    simp only [summaryLoop, h a (List.mem_cons_self a rest)]
    exact ih (fun lg hlg => h lg (List.mem_cons_of_mem a hlg))

/-! ## Claim theorems -/

/-- C1: for every loaded league dataset on which the summarizer succeeds,
each of the seven strategy columns' final value in `final_values` is the
last row's value of that column, and the emitted record's `best_return`
and `worst_return` are the maximum and minimum of those seven final
values; in particular, for final values `[10, -5, 20, 0, 15, -20, 5]`
mapped positionally to the seven fixed columns in declared order,
`best_return = 20` attributed to the third column
(`away_returns_total`) and `worst_return = -20` attributed to the sixth
column (`third_choice_returns_total`). -/
theorem summarizer_best_worst_final_values :
    (∀ (lg : String) (df : Dataset) (r : BestWorstRecord)
        (fv : List (String × Rat)),
      finalValues df = some fv → summarizeLeague lg df = some r →
      (∀ col ∈ strategy_colors.map Prod.fst,
        dictGet fv (toTotalName col) = lastRowValue df col) ∧
      ((r.best_return_column, r.best_return) ∈ fv ∧
        ∀ y ∈ fv, y.2 ≤ r.best_return) ∧
      ((r.worst_return_column, r.worst_return) ∈ fv ∧
        ∀ y ∈ fv, r.worst_return ≤ y.2)) ∧
    summarizeLeague "Premier League" sampleDataset =
      some ⟨"Premier League", 20, "away_returns_total",
            -20, "third_choice_returns_total"⟩ := by
  constructor
  · intro lg df r fv hfv hr
    obtain ⟨fv2, hfv2, hmax, hmin, _⟩ := summarizeLeague_some lg df r hr
    rw [hfv] at hfv2
    have hee := Option.some.inj hfv2
    subst hee
    obtain ⟨v1, v2, v3, v4, v5, v6, v7, e1, e2, e3, e4, e5, e6, e7, hfveq⟩ :=
      finalValues_some df fv hfv
    refine ⟨?_, ?_, ?_⟩
    · intro col hcol
      subst hfveq
      simp only [strategy_colors, List.map, List.mem_cons,
        List.not_mem_nil, or_false] at hcol
      rcases hcol with rfl | rfl | rfl | rfl | rfl | rfl | rfl
      · rw [e1]; rfl
      · rw [e2]; rfl
      · rw [e3]; rfl
      · rw [e4]; rfl
      · rw [e5]; rfl
      · rw [e6]; rfl
      · rw [e7]; rfl
    · obtain ⟨l₁, l₂, heq, _, hle⟩ := pyMaxBy_first fv _ hmax
      exact ⟨by rw [heq]; exact List.mem_append_right _ (List.mem_cons_self _ _),
        hle⟩
    · obtain ⟨l₁, l₂, heq, _, hge⟩ := pyMinBy_first fv _ hmin
      exact ⟨by rw [heq]; exact List.mem_append_right _ (List.mem_cons_self _ _),
        hge⟩
  · decide

/-- Witness for C1: the general part applied to the concrete dataset with
final values `[10, -5, 20, 0, 15, -20, 5]`. -/
theorem summarizer_best_worst_final_values_witness :
    (∀ col ∈ strategy_colors.map Prod.fst,
      dictGet sampleFinalValues (toTotalName col) =
        lastRowValue sampleDataset col) ∧
    ((("away_returns_total", (20 : Rat)) ∈ sampleFinalValues ∧
      ∀ y ∈ sampleFinalValues, y.2 ≤ (20 : Rat))) ∧
    ((("third_choice_returns_total", (-20 : Rat)) ∈ sampleFinalValues ∧
      ∀ y ∈ sampleFinalValues, (-20 : Rat) ≤ y.2)) :=
  summarizer_best_worst_final_values.1 "Premier League" sampleDataset
    ⟨"Premier League", 20, "away_returns_total", -20, "third_choice_returns_total"⟩
    sampleFinalValues (by decide) (by decide)

/-- C2: whenever the summarizer emits a record, `final_values` lists the
seven fixed columns in declaration order, the record's best column is the
first entry of `final_values` attaining the maximum (every earlier entry
is strictly smaller), and symmetrically the worst column is the first
entry attaining the minimum. -/
theorem tie_break_earliest_column :
    ∀ (lg : String) (df : Dataset) (r : BestWorstRecord)
      (fv : List (String × Rat)),
      finalValues df = some fv → summarizeLeague lg df = some r →
      fv.map Prod.fst = sevenTotalNames ∧
      (∃ l₁ l₂, fv = l₁ ++ (r.best_return_column, r.best_return) :: l₂ ∧
        ∀ y ∈ l₁, y.2 < r.best_return) ∧
      (∃ l₁ l₂, fv = l₁ ++ (r.worst_return_column, r.worst_return) :: l₂ ∧
        ∀ y ∈ l₁, r.worst_return < y.2) := by
  intro lg df r fv hfv hr
  obtain ⟨fv2, hfv2, hmax, hmin, _⟩ := summarizeLeague_some lg df r hr
  rw [hfv] at hfv2
  have hee := Option.some.inj hfv2
  subst hee
  obtain ⟨v1, v2, v3, v4, v5, v6, v7, _, _, _, _, _, _, _, hfveq⟩ :=
    finalValues_some df fv hfv
  refine ⟨by rw [hfveq]; rfl, ?_, ?_⟩
  · obtain ⟨l₁, l₂, heq, hlt, _⟩ := pyMaxBy_first fv _ hmax
    exact ⟨l₁, l₂, heq, hlt⟩
  · obtain ⟨l₁, l₂, heq, hlt, _⟩ := pyMinBy_first fv _ hmin
    exact ⟨l₁, l₂, heq, hlt⟩

/-- Witness for C2: on a dataset whose final values tie for the maximum
(home and draw, both 7) and for the minimum (first and second choice,
both 0), the earliest column wins in both cases. -/
theorem tie_break_earliest_column_witness :
    tieFinalValues.map Prod.fst = sevenTotalNames ∧
    (∃ l₁ l₂, tieFinalValues =
        l₁ ++ ("home_returns_total", (7 : Rat)) :: l₂ ∧
      ∀ y ∈ l₁, y.2 < (7 : Rat)) ∧
    (∃ l₁ l₂, tieFinalValues =
        l₁ ++ ("first_choice_returns_total", (0 : Rat)) :: l₂ ∧
      ∀ y ∈ l₁, (0 : Rat) < y.2) :=
  tie_break_earliest_column "X" tieDataset
    ⟨"X", 7, "home_returns_total", 0, "first_choice_returns_total"⟩
    tieFinalValues (by decide) (by decide)

/-- C3: the loader derives the season string by splitting the filename on
`-` and joining the second-to-last segment and the suffix-stripped last
segment with a `-`; for
`england_premier-league-2023-2024_financial_returns.csv` this yields
`"2023-2024"`, and the same holds for each of the 9 configured league
filenames. -/
theorem season_parsing :
    deriveSeason "england_premier-league-2023-2024_financial_returns.csv" =
      some "2023-2024" ∧
    league_files.map (fun kv => deriveSeason kv.2) =
      List.replicate 9 (some "2023-2024") := by
  decide

/-- C4: after any sequence of "Load Data" clicks starting from an empty
session, the session store holds at most one dataset per league (its
entry is keyed by the league's name suffixed with `_df`, and re-loading
replaces rather than duplicates it). -/
theorem store_at_most_one_per_league :
    ∀ (env : String → Option (List Row)) (actions : List (List String))
      (league : String),
      (applyLoads env actions []).countP
        (fun e => e.1 == league ++ "_df") ≤ 1 := by
  intro env actions league
  exact countP_keys_le_one _ _ (applyLoads_nodup env actions [] (by simp))

/-- C5: triggering "Load Data" with zero leagues selected produces the
warning outcome and leaves the session store unchanged; no file is even
consulted (the result does not depend on `env`). -/
theorem empty_selection_guard :
    ∀ (env : String → Option (List Row)) (store : Store),
      loadDataAction env [] store = (store, LoadOutcome.warned) := by
  intro env store
  simp [loadDataAction]

/-- C6: in both the plot loop and the summary loop, a selected league with
no session-store entry is silently skipped — removing it from the
selection changes nothing — while every selected league that is loaded
contributes its chart (respectively its record) whenever the loop
completes. -/
theorem skip_on_missing_leagues :
    (∀ (store : Store) (pre post : List String) (league : String),
      dictGet store (league ++ "_df") = none →
      plotLoop store (pre ++ league :: post) = plotLoop store (pre ++ post) ∧
      summaryLoop store (pre ++ league :: post) =
        summaryLoop store (pre ++ post)) ∧
    (∀ (store : Store) (selected : List String) (league : String)
        (df : Dataset),
      league ∈ selected → dictGet store (league ++ "_df") = some df →
      (∀ charts, plotLoop store selected = some charts →
        ∃ c ∈ charts, plotLeague league df = some c) ∧
      (∀ records, summaryLoop store selected = some records →
        ∃ r ∈ records, summarizeLeague league df = some r)) := by
  constructor
  · intro store pre post league h
    exact ⟨plotLoop_skip store league h pre post,
      summaryLoop_skip store league h pre post⟩
  · intro store selected league df hmem hdg
    exact ⟨fun charts hc =>
        plotLoop_processed store selected league df hmem hdg charts hc,
      fun records hc =>
        summaryLoop_processed store selected league df hmem hdg records hc⟩

/-- Witness for C6: with only the Premier League loaded, selecting the
unloaded "League Two" changes neither loop, and the loaded league's chart
is still produced. -/
theorem skip_on_missing_leagues_witness :
    (plotLoop demoStore ([] ++ "League Two" :: ["Premier League"]) =
        plotLoop demoStore ([] ++ ["Premier League"]) ∧
      summaryLoop demoStore ([] ++ "League Two" :: ["Premier League"]) =
        summaryLoop demoStore ([] ++ ["Premier League"])) ∧
    (∃ c ∈ [Chart.mk "Premier League" "2023-2024"
        [("home_returns_running_total", [10]),
         ("draw_returns_running_total", [-5]),
         ("away_returns_running_total", [20]),
         ("first_choice_returns_running_total", [0]),
         ("second_choice_returns_running_total", [15]),
         ("third_choice_returns_running_total", [-20]),
         ("random_choice_1_running_balance", [5])]],
      plotLeague "Premier League" sampleDataset = some c) :=
  ⟨skip_on_missing_leagues.1 demoStore [] ["Premier League"] "League Two"
      (by decide),
    (skip_on_missing_leagues.2 demoStore ["League Two", "Premier League"]
        "Premier League" sampleDataset (by decide) (by decide)).1
      _ (by decide)⟩

/-- Counterexample for C7: it is not the case that every strategy's
summary column maps back to that strategy's fixed color — the random-pick
strategy's winning column `random_choice_1_total` is inverse-substituted
to `random_choice_1_running_total`, which the color map does not contain,
so the bar gets the `grey` fallback instead of `magenta`. -/
theorem bar_color_not_always_fixed :
    ¬ ∀ kv ∈ strategy_colors, barColor (toTotalName kv.1) = kv.2 := by
  decide

/-- C7 (amended): the six `_running_total` strategies' summary columns map
back to their fixed colors, while the random-pick strategy's column maps
to the fallback `grey`; accordingly, every emitted record's best or worst
column gets its strategy's fixed color from the color map unless that
column is `random_choice_1_total`, which always gets `grey`. -/
theorem bar_color_amended :
    (strategy_colors.map (fun kv => barColor (toTotalName kv.1)) =
      ["blue", "orange", "green", "purple", "red", "brown", "grey"]) ∧
    (∀ (lg : String) (df : Dataset) (r : BestWorstRecord),
      summarizeLeague lg df = some r →
      (r.best_return_column = "random_choice_1_total" →
        barColor r.best_return_column = "grey") ∧
      (r.best_return_column ≠ "random_choice_1_total" →
        dictGet strategy_colors
            (pyReplace r.best_return_column "_total" "_running_total") =
          some (barColor r.best_return_column)) ∧
      (r.worst_return_column = "random_choice_1_total" →
        barColor r.worst_return_column = "grey") ∧
      (r.worst_return_column ≠ "random_choice_1_total" →
        dictGet strategy_colors
            (pyReplace r.worst_return_column "_total" "_running_total") =
          some (barColor r.worst_return_column))) := by
  refine ⟨by decide, ?_⟩
  intro lg df r hr
  obtain ⟨hb, hw⟩ := summarize_cols_mem lg df r hr
  simp only [sevenTotalNames, column_name_map, List.map, List.mem_cons,
    List.not_mem_nil, or_false] at hb hw
  refine ⟨?_, ?_, ?_, ?_⟩
  · intro h; rw [h]; rfl
  · intro hne
    rcases hb with h | h | h | h | h | h | h
    case inr.inr.inr.inr.inr.inr => exact absurd h hne
    all_goals rw [h]
    all_goals rfl
  · intro h; rw [h]; rfl
  · intro hne
    rcases hw with h | h | h | h | h | h | h
    case inr.inr.inr.inr.inr.inr => exact absurd h hne
    all_goals rw [h]
    all_goals rfl

/-- Witness for C7 (amended): applied to the sample record, whose best
column `away_returns_total` maps back to `green` and whose worst column
`third_choice_returns_total` maps back to `brown`. -/
theorem bar_color_amended_witness :
    ("away_returns_total" = "random_choice_1_total" →
      barColor "away_returns_total" = "grey") ∧
    ("away_returns_total" ≠ "random_choice_1_total" →
      dictGet strategy_colors
          (pyReplace "away_returns_total" "_total" "_running_total") =
        some (barColor "away_returns_total")) ∧
    ("third_choice_returns_total" = "random_choice_1_total" →
      barColor "third_choice_returns_total" = "grey") ∧
    ("third_choice_returns_total" ≠ "random_choice_1_total" →
      dictGet strategy_colors
          (pyReplace "third_choice_returns_total" "_total" "_running_total") =
        some (barColor "third_choice_returns_total")) :=
  bar_color_amended.2 "Premier League" sampleDataset
    ⟨"Premier League", 20, "away_returns_total", -20, "third_choice_returns_total"⟩
    (by decide)

/-- Counterexample for C8: triggering the summary with one selected but
unloaded league collects zero records, and the action then aborts
(`pd.DataFrame([])` has no columns, so the `best_return_column` access
raises `KeyError`) instead of displaying an empty summary. -/
theorem summary_empty_crash_counterexample :
    summarizeAction [] ["Premier League"] = none := by
  decide

/-- C8 (amended): if the summary action is triggered while no selected
league has a loaded dataset, the loop collects the empty record list and
the action then fails with a column-not-found error rather than
displaying a summary with zero records. -/
theorem summary_empty_crash :
    ∀ (store : Store) (selected : List String),
      (∀ league ∈ selected, dictGet store (league ++ "_df") = none) →
      summaryLoop store selected = some [] ∧
      summarizeAction store selected = none := by
  intro store selected h
  have hloop := summaryLoop_all_missing store selected h
  exact ⟨hloop, by simp [summarizeAction, hloop]⟩

/-- Witness for C8 (amended): two selected leagues, empty store. -/
theorem summary_empty_crash_witness :
    summaryLoop [] ["Premier League", "League Two"] = some [] ∧
    summarizeAction [] ["Premier League", "League Two"] = none :=
  summary_empty_crash [] ["Premier League", "League Two"] (by decide)

/-- C9: every record emitted by the summarizer has
`worst_return ≤ best_return`, both being extrema of the same non-empty
`final_values` dict. -/
theorem best_ge_worst :
    ∀ (lg : String) (df : Dataset) (r : BestWorstRecord),
      summarizeLeague lg df = some r → r.worst_return ≤ r.best_return := by
  intro lg df r hr
  obtain ⟨fv, hfv, hmax, hmin, _⟩ := summarizeLeague_some lg df r hr
  obtain ⟨l₁, l₂, heq, _, _⟩ := pyMaxBy_first fv _ hmax
  obtain ⟨_, _, _, _, hge⟩ := pyMinBy_first fv _ hmin
  have hmem : (r.best_return_column, r.best_return) ∈ fv := by
    rw [heq]; exact List.mem_append_right _ (List.mem_cons_self _ _)
  simpa using hge _ hmem

/-- Witness for C9: on the sample dataset, `-20 ≤ 20`. -/
theorem best_ge_worst_witness : (-20 : Rat) ≤ 20 :=
  best_ge_worst "Premier League" sampleDataset
    ⟨"Premier League", 20, "away_returns_total", -20, "third_choice_returns_total"⟩
    (by decide)

/-- C10: the suffix substitution maps the seven running column names
exactly onto the seven keys of `column_name_map` (injectively, since
those keys are distinct); hence a successful `final_values` has exactly
seven entries, and the description lookup for every emitted record's best
and worst columns never misses. -/
theorem total_name_map_exact :
    (strategy_colors.map (fun kv => toTotalName kv.1) = sevenTotalNames ∧
      sevenTotalNames.Nodup) ∧
    (∀ (df : Dataset) (fv : List (String × Rat)),
      finalValues df = some fv → fv.length = 7) ∧
    (∀ (lg : String) (df : Dataset) (r : BestWorstRecord),
      summarizeLeague lg df = some r →
      (dictGet column_name_map r.best_return_column).isSome ∧
      (dictGet column_name_map r.worst_return_column).isSome) := by
  refine ⟨by decide, ?_, ?_⟩
  · intro df fv hfv
    obtain ⟨v1, v2, v3, v4, v5, v6, v7, _, _, _, _, _, _, _, hfveq⟩ :=
      finalValues_some df fv hfv
    rw [hfveq]; rfl
  · intro lg df r hr
    obtain ⟨hb, hw⟩ := summarize_cols_mem lg df r hr
    constructor
    · simp only [sevenTotalNames, column_name_map, List.map, List.mem_cons,
        List.not_mem_nil, or_false] at hb
      rcases hb with h | h | h | h | h | h | h <;> (rw [h]; rfl)
    · simp only [sevenTotalNames, column_name_map, List.map, List.mem_cons,
        List.not_mem_nil, or_false] at hw
      rcases hw with h | h | h | h | h | h | h <;> (rw [h]; rfl)

/-- Witness for C10: the description lookups for the sample record's best
and worst columns succeed. -/
theorem total_name_map_exact_witness :
    (dictGet column_name_map "away_returns_total").isSome ∧
    (dictGet column_name_map "third_choice_returns_total").isSome :=
  total_name_map_exact.2.2 "Premier League" sampleDataset
    ⟨"Premier League", 20, "away_returns_total", -20, "third_choice_returns_total"⟩
    (by decide)

end Financials
